import Mathlib

/-!
# A verification model of the sturdyc in-process sharded cache

The repository ships the test suite of the cache (`cache_test.go`) and an
example program; the production package itself (shard, cache, fetch
coordinator, clock, metrics) is not part of the source tree here. Every
definition below is therefore modelled from the specification document,
faithful to its words, and validated against the behaviour the test file
asserts. Time is modelled as a natural number of milliseconds drawn from the
injected (fake) clock; randomness is modelled by explicit `r : Nat`
parameters that are folded into the window the spec prescribes.
-/

set_option autoImplicit false
set_option maxRecDepth 8000

namespace Sturdyc

/-- Modelled from the spec: the per-key cache entry (§3 DATA MODEL).
Carries the payload, the negative-cache marker, the insertion /
expiry / refresh timestamps, the in-flight-refresh flag and the
consecutive-refresh-failure counter. -/
structure Entry (α : Type) where
  value : α
  isMissingRecord : Bool
  createdAt : Nat
  expiresAt : Nat
  refreshAt : Nat
  isRefreshing : Bool
  consecutiveRefreshFailures : Nat
deriving Repr, DecidableEq

/-- Modelled from the spec: the immutable cache configuration (§3):
total capacity, number of shards, ttl, eviction percentage, and the
optional stampede-protection triple with the negative-caching flag. -/
structure Config where
  capacity : Nat
  numShards : Nat
  ttl : Nat
  evictionPercentage : Nat
  stampedeProtectionEnabled : Bool
  minRefreshDelay : Nat
  maxRefreshDelay : Nat
  retryInterval : Nat
  storeMisses : Bool
deriving Repr, DecidableEq

/-- Modelled from the spec (§4.2): the cap on the exponent of the
exponential back-off ("a cap around 10–12 is sufficient"). -/
def backoffCap : Nat := 10

/-- Modelled from the spec (§4.1): the per-shard capacity is
`ceil(totalCapacity / numShards)`. -/
def perShardCapacity (cfg : Config) : Nat :=
  (cfg.capacity + cfg.numShards - 1) / cfg.numShards

/-- A shard's store: an association list from string keys to entries
(the Go map, in hash order). -/
abbrev Shard (α : Type) := List (String × Entry α)

/-- Modelled from the spec (§4.2): on every successful insertion or refresh
`refresh_at` is drawn from `[now + minRefreshDelay, now + maxRefreshDelay]`;
the draw is modelled by folding the randomness `r` into the window. -/
def drawRefreshAt (cfg : Config) (now r : Nat) : Nat :=
  now + cfg.minRefreshDelay + r % (cfg.maxRefreshDelay + 1 - cfg.minRefreshDelay)

/-- Modelled from the spec (§3): a freshly inserted (or refreshed) entry:
`created_at = now`, `expires_at = now + ttl`, `refresh_at` drawn from the
refresh window, not refreshing, zero consecutive failures. -/
def newEntry (cfg : Config) (now r : Nat) {α : Type} (v : α) (missing : Bool) : Entry α :=
  { value := v
    isMissingRecord := missing
    createdAt := now
    expiresAt := now + cfg.ttl
    refreshAt := drawRefreshAt cfg now r
    isRefreshing := false
    consecutiveRefreshFailures := 0 }

/-- First value bound to `k` in an association list. -/
def lookupKey {β : Type} (k : String) : List (String × β) → Option β
  | [] => none
  | (a, b) :: t => if a = k then some b else lookupKey k t

/-- Replace the value bound to `k` (first binding), keeping everything else. -/
def overwriteKey {β : Type} (k : String) (v : β) : List (String × β) → List (String × β)
  | [] => []
  | (a, b) :: t => if a = k then (a, v) :: t else (a, b) :: overwriteKey k v t

/-- Delete the first binding of `k`. -/
def deleteKey {β : Type} (k : String) : List (String × β) → List (String × β)
  | [] => []
  | (a, b) :: t => if a = k then t else (a, b) :: deleteKey k t

/-- Modelled from the spec (§4.1 `get`): if the key is present and live
(`now < expires_at`) return the entry, otherwise nothing; non-live
entries are ignored. -/
def shardGet {α : Type} (now : Nat) (s : Shard α) (k : String) : Option (Entry α) :=
  match lookupKey k s with
  | some e => if now < e.expiresAt then some e else none
  | none => none

/-- Smallest `expires_at` in a shard, if the shard is nonempty. -/
def minExpiry {α : Type} : Shard α → Option Nat
  | [] => none
  | (_, e) :: t =>
    match minExpiry t with
    | none => some e.expiresAt
    | some m => some (Nat.min e.expiresAt m)

/-- Modelled from the spec (§4.1 forced-eviction policy): remove one entry
closest to expiry (lowest `expires_at`); the first entry attaining the
minimum is removed. -/
def removeOneMin {α : Type} : Shard α → Shard α
  | [] => []
  | (k, e) :: t =>
    match minExpiry t with
    | none => []
    | some m => if e.expiresAt ≤ m then t else (k, e) :: removeOneMin t

/-- Modelled from the spec (§4.1 `forced_evict`): remove `q` entries chosen
closest to expiry. -/
def forcedEvict {α : Type} : Nat → Shard α → Shard α
  | 0, s => s
  | q + 1, s => forcedEvict q (removeOneMin s)

/-- Modelled from the spec (§4.1 `set`): overwrite when present; plain insert
below capacity; a silent no-op when full and `evictionPercentage = 0`;
otherwise forced eviction of `ceil(perShardCapacity · evictionPercentage / 100)`
entries followed by the insert. Returns the new shard together with the
number of forced evictions reported to the metrics recorder. -/
def shardSet {α : Type} (cfg : Config) (s : Shard α) (k : String) (e : Entry α) :
    Shard α × Nat :=
  match lookupKey k s with
  | some _ => (overwriteKey k e s, 0)
  | none =>
    if s.length < perShardCapacity cfg then ((k, e) :: s, 0)
    else if cfg.evictionPercentage = 0 then (s, 0)
    else
      let q := (perShardCapacity cfg * cfg.evictionPercentage + 99) / 100
      let s2 := forcedEvict q s
      ((k, e) :: s2, s.length - s2.length)

/-- Modelled from the spec (§4.1 `evict_expired`): scan all entries, remove
any with `expires_at ≤ now`, and report the removed count to metrics. -/
def evictExpired {α : Type} (now : Nat) : Shard α → Shard α × Nat
  | [] => ([], 0)
  | (k, e) :: t =>
    let (t2, c) := evictExpired now t
    if e.expiresAt ≤ now then (t2, c + 1) else ((k, e) :: t2, c)

/-- Modelled from the spec (§4.1): shard routing is by a stable hash of the
key modulo `numShards`; the hash function is a parameter of the model. -/
def shardIndex (numShards : Nat) (hash : String → Nat) (k : String) : Nat :=
  hash k % numShards

/-- Apply a shard transformation (returning a metrics count) to the `i`-th
shard of the cache, leaving the other shards untouched. -/
def updateNth {α : Type} (f : Shard α → Shard α × Nat) :
    Nat → List (Shard α) → List (Shard α) × Nat
  | _, [] => ([], 0)
  | 0, s :: t => ((f s).1 :: t, (f s).2)
  | i + 1, s :: t =>
    let (t2, n) := updateNth f i t
    (s :: t2, n)

/-- Modelled from the spec (§4.1, §6 `Set`): route the key to its shard and
perform the shard-level set there; the second component is the number of
forced evictions this set reported. -/
def cacheSet {α : Type} (cfg : Config) (hash : String → Nat) (c : List (Shard α))
    (k : String) (e : Entry α) : List (Shard α) × Nat :=
  updateNth (fun s => shardSet cfg s k e) (shardIndex cfg.numShards hash k) c

/-- Run a sequence of typed `Set` operations (key, value, randomness for the
refresh-window draw) against the cache at time `now`, accumulating the
forced evictions the metrics recorder receives. -/
def runSets {α : Type} (cfg : Config) (hash : String → Nat) (now : Nat) :
    List (String × α × Nat) → List (Shard α) → List (Shard α) × Nat
  | [], c => (c, 0)
  | (k, v, r) :: t, c =>
    let (c1, n1) := cacheSet cfg hash c k (newEntry cfg now r v false)
    let (c2, n2) := runSets cfg hash now t c1
    (c2, n1 + n2)

/-- Sweep every shard of the cache with `evict_expired(now)` and accumulate
the evicted-entry counts the metrics recorder receives. -/
def sweepAll {α : Type} (now : Nat) : List (Shard α) → List (Shard α) × Nat
  | [] => ([], 0)
  | s :: t =>
    let (s2, c) := evictExpired now s
    let (t2, n) := sweepAll now t
    (s2 :: t2, c + n)

/-- Total number of entries stored across all shards. -/
def totalSize {α : Type} : List (Shard α) → Nat
  | [] => 0
  | s :: t => s.length + totalSize t

/-- The behaviour of the caller-supplied single-key fetch function for one
invocation: a value, the sentinel "record is missing" error, or any other
(transient) error, identified by a numeric code. -/
inductive FetchResult (α : Type) where
  | success (v : α)
  | storeMissingRecord
  | failure (code : Nat)
deriving Repr, DecidableEq

/-- What a `GetFetch` call returns to its caller: a value or one of the
error sentinels of §6 (`ErrStoreMissingRecord`, `ErrMissingRecord`), or the
fetch function's own error passed through verbatim. -/
inductive GetResult (α : Type) where
  | ok (v : α)
  | errStoreMissingRecord
  | errMissingRecord
  | errFetch (code : Nat)
deriving Repr, DecidableEq

/-- Modelled from the spec (§4.2 back-off): a failed refresh increments
`consecutive_refresh_failures` and sets
`refresh_at = now + retryInterval · 2^(min(failures, CAP))`, clearing the
in-flight flag. -/
def backoffOnFailure {α : Type} (cfg : Config) (now : Nat) (e : Entry α) : Entry α :=
  { e with
    isRefreshing := false
    consecutiveRefreshFailures := e.consecutiveRefreshFailures + 1
    refreshAt := now + cfg.retryInterval *
      2 ^ (Nat.min (e.consecutiveRefreshFailures + 1) backoffCap) }

/-- Modelled from the spec (§4.3 step 3 and §4.2): the effect of one
background refresh of key `k`, applied under the shard lock once the
upstream call returns. Success re-inserts a fresh entry (resetting the
failure counter and redrawing `refresh_at`); the missing-record sentinel
stores a negative-cache entry when enabled and deletes the key otherwise;
any other error applies the exponential back-off while the stale value
keeps being served. -/
def applyRefresh {α : Type} (cfg : Config) (now r : Nat) (fr : FetchResult α)
    (s : Shard α) (k : String) : Shard α :=
  match fr with
  | .success v => (shardSet cfg s k (newEntry cfg now r v false)).1
  | .storeMissingRecord =>
    match lookupKey k s with
    | some e => if cfg.storeMisses then
        (shardSet cfg s k (newEntry cfg now r e.value true)).1
      else deleteKey k s
    | none => s
  | .failure _ =>
    match lookupKey k s with
    | some e => overwriteKey k (backoffOnFailure cfg now e) s
    | none => s

/-- Is this live entry due for a background refresh right now (stampede
protection enabled, `refresh_at` reached, and no refresh already in
flight)? -/
def dueForRefresh {α : Type} (cfg : Config) (now : Nat) (e : Entry α) : Bool :=
  cfg.stampedeProtectionEnabled && decide (e.refreshAt ≤ now) && !e.isRefreshing

/-- Modelled from the spec (§4.3 `GetFetch`). The test clock is frozen for
the duration of a call, so the background refresh that a due hit launches
is modelled as completing atomically: the returned value is taken from the
entry as it was before the refresh (the stale-but-live value, or
`ErrMissingRecord` for a negative-cache hit), while the returned shard
already contains the refresh outcome. A miss calls the fetch function
synchronously: success inserts the entry, the missing-record sentinel
inserts a negative-cache entry when enabled and surfaces
`ErrStoreMissingRecord`, and any other error is surfaced without caching.
The third component is the number of upstream calls this invocation made. -/
def getFetch {α : Type} [Inhabited α] (cfg : Config) (now r : Nat) (fr : FetchResult α)
    (s : Shard α) (k : String) : GetResult α × Shard α × Nat :=
  match shardGet now s k with
  | some e =>
    let res := if e.isMissingRecord then GetResult.errMissingRecord else GetResult.ok e.value
    if dueForRefresh cfg now e then
      (res, applyRefresh cfg now r fr s k, 1)
    else
      (res, s, 0)
  | none =>
    match fr with
    | .success v => (GetResult.ok v, (shardSet cfg s k (newEntry cfg now r v false)).1, 1)
    | .storeMissingRecord =>
      (GetResult.errStoreMissingRecord,
        if cfg.storeMisses then (shardSet cfg s k (newEntry cfg now r default true)).1 else s, 1)
    | .failure c => (GetResult.errFetch c, s, 1)

/-- The behaviour of the caller-supplied batch fetch function for one
invocation: a (possibly partial, possibly empty) response map keyed by id,
or an error identified by a numeric code. -/
inductive BatchFetchResult (α : Type) where
  | success (response : List (String × α))
  | failure (code : Nat)
deriving Repr, DecidableEq

/-- The error component of a `GetFetchBatch` call: the
`ErrOnlyCachedRecords` sentinel, or the underlying batch fetch error. -/
inductive BatchErr where
  | onlyCachedRecords
  | fetchFailure (code : Nat)
deriving Repr, DecidableEq

/-- Everything one `GetFetchBatch` call produces: the id-keyed result map,
the optional error, the shard as left behind, the number of upstream calls
made, and the ids the synchronous batch fetch was invoked with. -/
structure BatchOutcome (α : Type) where
  records : List (String × α)
  error : Option BatchErr
  shard : Shard α
  upstreamCalls : Nat
  requestedIds : List String
deriving Repr, DecidableEq

/-- Modelled from the spec (§4.3 batch, step 1): partition the input ids
into the cached records served immediately (live positive hits; live
negative-cache hits are served as silent misses of the result map), the
ids whose entries are due for a background refresh, and the missing ids. -/
def batchPartition {α : Type} (cfg : Config) (now : Nat) (s : Shard α)
    (keyOf : String → String) : List String → List (String × α) × List String × List String
  | [] => ([], [], [])
  | id :: t =>
    let (c, d, m) := batchPartition cfg now s keyOf t
    match shardGet now s (keyOf id) with
    | some e =>
      (if e.isMissingRecord then c else (id, e.value) :: c,
       if dueForRefresh cfg now e then id :: d else d,
       m)
    | none => (c, d, id :: m)

/-- Modelled from the spec (§4.3 batch, step 3 and §4.2): apply the outcome
of one background batch refresh for the due ids. On success every id found
in the response map is re-inserted fresh, and every id the response omits
is treated as a missing record (negatively cached when enabled); on error
every id in the batch gets the exponential back-off applied. -/
def applyBatchRefresh {α : Type} (cfg : Config) (now r : Nat)
    (fr : BatchFetchResult α) (keyOf : String → String) :
    List String → Shard α → Shard α
  | [], s => s
  | id :: t, s =>
    let s2 :=
      match fr with
      | .success resp =>
        match lookupKey id resp with
        | some v => (shardSet cfg s (keyOf id) (newEntry cfg now r v false)).1
        | none => applyRefresh cfg now r FetchResult.storeMissingRecord s (keyOf id)
      | .failure _ =>
        match lookupKey (keyOf id) s with
        | some e => overwriteKey (keyOf id) (backoffOnFailure cfg now e) s
        | none => s
    applyBatchRefresh cfg now r fr keyOf t s2

/-- Modelled from the spec (§4.3 batch, step 4): store the synchronous batch
response for the missing ids — ids present in the response are inserted,
ids the response omits are treated as missing records and negatively
cached when enabled — and collect the fetched (id, value) pairs for the
caller's result map. -/
def storeBatchResponse {α : Type} [Inhabited α] (cfg : Config) (now r : Nat)
    (resp : List (String × α)) (keyOf : String → String) :
    List String → Shard α → List (String × α) × Shard α
  | [], s => ([], s)
  | id :: t, s =>
    match lookupKey id resp with
    | some v =>
      let (ps, s2) := storeBatchResponse cfg now r resp keyOf t
        ((shardSet cfg s (keyOf id) (newEntry cfg now r v false)).1)
      ((id, v) :: ps, s2)
    | none =>
      storeBatchResponse cfg now r resp keyOf t
        (if cfg.storeMisses then
          (shardSet cfg s (keyOf id) (newEntry cfg now r default true)).1
         else s)

/-- Modelled from the spec (§4.3 `GetFetchBatch`). The ids are partitioned
into cached / due-for-refresh / missing; cached records are returned
immediately; one background batch refresh (with outcome `refreshFr`) is
issued for the due set; the synchronous batch fetch (with outcome `fr`) is
invoked with exactly the missing ids. If it succeeds, the fetched records
are merged with the cached ones and omitted ids are negatively cached; if
it errors while some records were cached, `ErrOnlyCachedRecords` is
surfaced with the cached partial map; if it errors and nothing was cached,
the underlying error is surfaced. -/
def getFetchBatch {α : Type} [Inhabited α] (cfg : Config) (now r : Nat)
    (refreshFr : BatchFetchResult α) (fr : BatchFetchResult α) (s : Shard α)
    (keyOf : String → String) (ids : List String) : BatchOutcome α :=
  let (cached, due, missing) := batchPartition cfg now s keyOf ids
  let refreshCalls := if due.isEmpty then 0 else 1
  let s1 := if due.isEmpty then s else applyBatchRefresh cfg now r refreshFr keyOf due s
  if missing.isEmpty then
    { records := cached, error := none, shard := s1,
      upstreamCalls := refreshCalls, requestedIds := [] }
  else
    match fr with
    | .success resp =>
      let (fetched, s2) := storeBatchResponse cfg now r resp keyOf missing s1
      { records := cached ++ fetched, error := none, shard := s2,
        upstreamCalls := refreshCalls + 1, requestedIds := missing }
    | .failure code =>
      if cached.isEmpty then
        { records := [], error := some (BatchErr.fetchFailure code), shard := s1,
          upstreamCalls := refreshCalls + 1, requestedIds := missing }
      else
        { records := cached, error := some BatchErr.onlyCachedRecords, shard := s1,
          upstreamCalls := refreshCalls + 1, requestedIds := missing }

/-- Modelled from the spec (§6 `BatchKeyFn`): the canonical key form
`prefix + "-" + id`, injective in the (prefix, id) pair. -/
def batchKeyFn (ns : String) (id : String) : String :=
  ns ++ "-" ++ id

/-- State of one hot key during a burst of concurrent `GetFetch` calls:
the entry as stored in its shard, and the cumulative number of upstream
fetch invocations. -/
structure RefreshBurst (α : Type) where
  entry : Entry α
  fetchCount : Nat
deriving Repr, DecidableEq

/-- One atomic step of the burst. The shard mutex makes each caller's
check-and-mark and each refresh completion atomic (§4.1 Concurrency, §5),
so a burst of N goroutines is an arbitrary interleaving of these events:
`caller r v` is one `GetFetch` call inspecting the entry (with `v` the
value the upstream would return and `r` the randomness of the redraw),
`complete r v` is an in-flight background refresh publishing its result. -/
inductive BurstEvent (α : Type) where
  | caller (r : Nat) (v : α)
  | complete (r : Nat) (v : α)
deriving Repr, DecidableEq

/-- Modelled from the spec (§4.3 steps 2–5 and §5 Ordering): a caller that
finds the entry live and due and not already refreshing marks
`is_refreshing` and launches the one background refresh (one upstream
call); a caller that finds it live but not due, or already refreshing,
touches nothing; a caller that finds the entry expired performs the
single-flight synchronous cold fetch. A completion event publishes the
refresh result, re-inserting a fresh entry; completions are gated on
`is_refreshing`. -/
def burstStep {α : Type} (cfg : Config) (now : Nat) (st : RefreshBurst α) :
    BurstEvent α → RefreshBurst α
  | .caller r v =>
    if now < st.entry.expiresAt then
      if dueForRefresh cfg now st.entry then
        { entry := { st.entry with isRefreshing := true }, fetchCount := st.fetchCount + 1 }
      else st
    else
      { entry := newEntry cfg now r v false, fetchCount := st.fetchCount + 1 }
  | .complete r v =>
    if st.entry.isRefreshing then
      { entry := newEntry cfg now r v false, fetchCount := st.fetchCount }
    else st

/-- Run a whole interleaving of burst events. -/
def burstRun {α : Type} (cfg : Config) (now : Nat) (st : RefreshBurst α)
    (trace : List (BurstEvent α)) : RefreshBurst α :=
  trace.foldl (burstStep cfg now) st

/-- Does the interleaving contain at least one caller event? -/
def hasCaller {α : Type} : List (BurstEvent α) → Bool
  | [] => false
  | BurstEvent.caller _ _ :: _ => true
  | BurstEvent.complete _ _ :: t => hasCaller t

/-- State of a set of `n` due-for-refresh keys during a burst of concurrent
`GetFetchBatch` calls: which keys have been marked as participating in an
in-flight batch refresh, and the cumulative number of upstream batch
calls. -/
structure BatchBurst (n : Nat) where
  marked : List (Fin n)
  fetchCount : Nat
deriving Repr, DecidableEq

/-- Modelled from the spec (§4.3 batch, step 3) and the interleaving the
test file documents (there is no top-level lock across the ids of one
`GetFetchBatch` call): each goroutine marks due keys one at a time under
the per-key lock — a key already participating in an in-flight batch
refresh is excluded — and then issues a single background batch refresh
containing exactly the keys it managed to mark, if any. The event `s` is
one goroutine launching the batch consisting of the distinct,
previously-unmarked keys `s`; a goroutine that marked nothing launches
nothing and is the identity event `[]`. -/
def batchBurstStep {n : Nat} (st : BatchBurst n) (s : List (Fin n)) : BatchBurst n :=
  if s ≠ [] ∧ s.Nodup ∧ ∀ k ∈ s, k ∉ st.marked then
    { marked := s ++ st.marked, fetchCount := st.fetchCount + 1 }
  else st

/-- Run a whole interleaving of batch-burst events. -/
def batchBurstRun {n : Nat} (st : BatchBurst n) (trace : List (List (Fin n))) :
    BatchBurst n :=
  trace.foldl batchBurstStep st

/-- A cache fresh out of the constructor: `numShards` empty shards. -/
def emptyCache (α : Type) (numShards : Nat) : List (Shard α) :=
  List.replicate numShards []

/-- The retry loop of the back-off scenario: `n` further `GetFetch` calls
against a permanently failing upstream, each advancing the injected clock
by `retryInterval` first; returns the number of upstream attempts the loop
caused together with the final shard. -/
def retryLoop (cfg : Config) (code : Nat) :
    Nat → Nat → Shard String → String → Nat × Shard String
  | 0, _, s, _ => (0, s)
  | n + 1, clock, s, k =>
    let clock2 := clock + cfg.retryInterval
    let out := getFetch cfg clock2 0 (FetchResult.failure code) s k
    let rest := retryLoop cfg code n clock2 out.2.1 k
    (out.2.2 + rest.1, rest.2)

/-- The configuration of the back-off scenario (capacity 5, 1 shard, ttl one
minute, stampede protection with min delay 1 s, max delay 2 s, retry
interval 10 ms, negative caching on); times in milliseconds. -/
def retryScenarioConfig : Config :=
  { capacity := 5, numShards := 1, ttl := 60000, evictionPercentage := 10,
    stampedeProtectionEnabled := true, minRefreshDelay := 1000,
    maxRefreshDelay := 2000, retryInterval := 10, storeMisses := true }

/-- The configuration of the negative-caching scenario (capacity 5, 1 shard,
ttl one minute, stampede protection with min delay 1 s, max delay 2 s,
retry interval 10 ms, negative caching on); times in milliseconds. -/
def missingScenarioConfig : Config :=
  { capacity := 5, numShards := 1, ttl := 60000, evictionPercentage := 20,
    stampedeProtectionEnabled := true, minRefreshDelay := 1000,
    maxRefreshDelay := 2000, retryInterval := 10, storeMisses := true }

/-- The configuration of the nil-map batch scenario (capacity 5, 1 shard,
ttl one minute, stampede protection with min delay one minute, max delay
two minutes, retry interval 1 s, negative caching on); milliseconds. -/
def nilMapScenarioConfig : Config :=
  { capacity := 5, numShards := 1, ttl := 60000, evictionPercentage := 50,
    stampedeProtectionEnabled := true, minRefreshDelay := 60000,
    maxRefreshDelay := 120000, retryInterval := 1000, storeMisses := true }

/-- The configuration of the single-key stampede scenario (capacity 10,
2 shards, ttl 2 s, stampede protection with min delay 500 ms, max delay
1 s, retry interval 10 ms, negative caching on); milliseconds. -/
def stampedeScenarioConfig : Config :=
  { capacity := 10, numShards := 2, ttl := 2000, evictionPercentage := 10,
    stampedeProtectionEnabled := true, minRefreshDelay := 500,
    maxRefreshDelay := 1000, retryInterval := 10, storeMisses := true }

/-- Burst invariant before any caller has observed the due entry: one
upstream call so far (the cold miss), and the entry is live, past its
`refresh_at`, with no refresh in flight. -/
def burstInv1 {α : Type} (now : Nat) (st : RefreshBurst α) : Prop :=
  st.fetchCount = 1 ∧ now < st.entry.expiresAt ∧ st.entry.refreshAt ≤ now ∧
    st.entry.isRefreshing = false

/-- Burst invariant after the one refresh was launched: two upstream calls,
and the entry is live and either still refreshing or no longer due. -/
def burstInv2 {α : Type} (now : Nat) (st : RefreshBurst α) : Prop :=
  st.fetchCount = 2 ∧ now < st.entry.expiresAt ∧
    (st.entry.isRefreshing = true ∨ now < st.entry.refreshAt)

/-- The configuration of the plain batch scenarios (capacity 5, 1 shard,
ttl one minute, no stampede protection, no negative caching). -/
def batchScenarioConfig : Config :=
  { capacity := 5, numShards := 1, ttl := 60000, evictionPercentage := 30,
    stampedeProtectionEnabled := false, minRefreshDelay := 0,
    maxRefreshDelay := 0, retryInterval := 0, storeMisses := false }

/-- A 2-entry / 2-shard configuration (per-shard capacity 1) with full
forced eviction, for exercising the capacity bound. -/
def tinyEvictingConfig : Config :=
  { capacity := 2, numShards := 2, ttl := 60000, evictionPercentage := 100,
    stampedeProtectionEnabled := false, minRefreshDelay := 0,
    maxRefreshDelay := 0, retryInterval := 0, storeMisses := false }

/-- A 2-entry / 2-shard configuration (per-shard capacity 1) with forced
eviction disabled (`evictionPercentage = 0`). -/
def tinyNoEvictConfig : Config :=
  { capacity := 2, numShards := 2, ttl := 60000, evictionPercentage := 0,
    stampedeProtectionEnabled := false, minRefreshDelay := 0,
    maxRefreshDelay := 0, retryInterval := 0, storeMisses := false }

/-- A 2-entry / 2-shard configuration with a very short ttl (10 ms), for
exercising the expiry sweep. -/
def tinyShortTtlConfig : Config :=
  { capacity := 2, numShards := 2, ttl := 10, evictionPercentage := 5,
    stampedeProtectionEnabled := false, minRefreshDelay := 0,
    maxRefreshDelay := 0, retryInterval := 0, storeMisses := false }

/-- A burst of typed `Set` operations on distinct keys, more than the tiny
configurations can hold. -/
def tinySetOps : List (String × String × Nat) :=
  [("a", "v1", 0), ("b", "v2", 0), ("c", "v3", 0), ("d", "v4", 0), ("e", "v5", 0)]

/-- A one-entry shard holding key `"a"`, at the per-shard capacity of the
tiny configurations. -/
def tinyFullShard : Shard String :=
  [("a", newEntry tinyNoEvictConfig 0 0 "value" false)]

/-- A two-shard cache whose two entries (one per shard) expire 10 ms after
insertion at time 0. -/
def tinyExpiredCache : List (Shard String) :=
  [[("a", newEntry tinyShortTtlConfig 0 0 "v1" false)],
   [("b", newEntry tinyShortTtlConfig 0 0 "v2" false)]]

/-! ## Shard-level length lemmas -/

theorem length_overwriteKey {β : Type} (k : String) (v : β) :
    ∀ l : List (String × β), (overwriteKey k v l).length = l.length := by
  intro l
  induction l with
  | nil => rfl
  | cons h t ih =>
    obtain ⟨a, b⟩ := h
    by_cases hak : a = k
    · simp [overwriteKey, hak]
    · simp [overwriteKey, hak, ih]

theorem minExpiry_cons_ne_none {α : Type} (k : String) (e : Entry α) (t : Shard α) :
    minExpiry ((k, e) :: t) ≠ none := by
  simp only [minExpiry]
  cases minExpiry t <;> simp

theorem minExpiry_eq_none {α : Type} {s : Shard α} (h : minExpiry s = none) : s = [] := by
  cases s with
  | nil => rfl
  | cons hd t => exact absurd h (minExpiry_cons_ne_none hd.1 hd.2 t)

theorem length_removeOneMin {α : Type} :
    ∀ s : Shard α, (removeOneMin s).length = s.length - 1 := by
  intro s
  induction s with
  | nil => rfl
  | cons hd t ih =>
    obtain ⟨k, e⟩ := hd
    simp only [removeOneMin]
    cases hm : minExpiry t with
    | none =>
      have := minExpiry_eq_none hm
      subst this
      rfl
    | some m =>
      by_cases hle : e.expiresAt ≤ m
      · simp [hle]
      · have ht : t ≠ [] := by
          intro h
          subst h
          simp [minExpiry] at hm
        have : 1 ≤ t.length := List.length_pos.mpr ht
        simp only [hle, if_false, List.length_cons, ih]
        omega

theorem length_forcedEvict {α : Type} :
    ∀ (q : Nat) (s : Shard α), (forcedEvict q s).length = s.length - q := by
  intro q
  induction q with
  | zero => intro s; rfl
  | succ n ih =>
    intro s
    simp only [forcedEvict, ih, length_removeOneMin]
    omega

theorem shardSet_length_le {α : Type} (cfg : Config) (s : Shard α) (k : String)
    (e : Entry α) (hcap : 1 ≤ perShardCapacity cfg)
    (hs : s.length ≤ perShardCapacity cfg) :
    (shardSet cfg s k e).1.length ≤ perShardCapacity cfg := by
  unfold shardSet
  cases lookupKey k s with
  | some _ => simp [length_overwriteKey, hs]
  | none =>
    simp only
    by_cases hlt : s.length < perShardCapacity cfg
    · simp [hlt]
      omega
    · by_cases hp : cfg.evictionPercentage = 0
      · simp [hlt, hp, hs]
      · have hq : 1 ≤ (perShardCapacity cfg * cfg.evictionPercentage + 99) / 100 := by
          have h1 : 1 ≤ cfg.evictionPercentage := Nat.one_le_iff_ne_zero.mpr hp
          have : 100 ≤ perShardCapacity cfg * cfg.evictionPercentage + 99 := by
            have : 1 ≤ perShardCapacity cfg * cfg.evictionPercentage :=
              Nat.one_le_iff_ne_zero.mpr (Nat.mul_ne_zero (by omega) hp)
            omega
          omega
        rw [if_neg hlt, if_neg hp]
        simp only [List.length_cons, length_forcedEvict]
        omega

/-! ## Cache-level preservation lemmas -/

theorem updateNth_preserves {α : Type} (P : Shard α → Prop)
    (f : Shard α → Shard α × Nat) (hf : ∀ s, P s → P (f s).1) :
    ∀ (i : Nat) (c : List (Shard α)), (∀ s ∈ c, P s) →
      ∀ s ∈ (updateNth f i c).1, P s := by
  intro i
  induction i with
  | zero =>
    intro c hc s hs
    cases c with
    | nil => simp [updateNth] at hs
    | cons hd t =>
      simp only [updateNth, List.mem_cons] at hs
      rcases hs with h | h
      · exact h ▸ hf hd (hc hd (List.mem_cons_self hd t))
      · exact hc s (List.mem_cons_of_mem hd h)
  | succ n ih =>
    intro c hc s hs
    cases c with
    | nil => simp [updateNth] at hs
    | cons hd t =>
      simp only [updateNth, List.mem_cons] at hs
      rcases hs with h | h
      · exact h ▸ hc hd (List.mem_cons_self hd t)
      · exact ih t (fun x hx => hc x (List.mem_cons_of_mem hd hx)) s h

theorem runSets_preserves_bound {α : Type} (cfg : Config) (hash : String → Nat)
    (now : Nat) (hcap : 1 ≤ perShardCapacity cfg) :
    ∀ (ops : List (String × α × Nat)) (c : List (Shard α)),
      (∀ s ∈ c, s.length ≤ perShardCapacity cfg) →
      ∀ s ∈ (runSets cfg hash now ops c).1, s.length ≤ perShardCapacity cfg := by
  intro ops
  induction ops with
  | nil => intro c hc s hs; exact hc s hs
  | cons op t ih =>
    intro c hc s hs
    obtain ⟨k, v, r⟩ := op
    simp only [runSets] at hs
    refine ih _ ?_ s hs
    exact updateNth_preserves _ _
      (fun s2 h2 => shardSet_length_le cfg s2 k (newEntry cfg now r v false) hcap h2) _ c hc

/-- **C6.** After any sequence of `Set` operations against a fresh cache
whose configuration has at least one entry of capacity and at least one
shard, every shard's size is at most `ceil(capacity/numShards)` (the
per-shard capacity): insertion either overwrites, inserts below the bound,
is dropped (`evictionPercentage = 0`), or forcibly evicts at least one
entry before the new entry becomes visible, so the bound is restored
before the set returns. -/
theorem c6_capacity_bound {α : Type} (cfg : Config) (hash : String → Nat)
    (now : Nat) (ops : List (String × α × Nat))
    (hcap : 1 ≤ cfg.capacity) (hns : 1 ≤ cfg.numShards) :
    ∀ s ∈ (runSets cfg hash now ops (emptyCache α cfg.numShards)).1,
      s.length ≤ perShardCapacity cfg := by
  have hpc : 1 ≤ perShardCapacity cfg := by
    unfold perShardCapacity
    rw [Nat.le_div_iff_mul_le (by omega)]
    omega
  refine runSets_preserves_bound cfg hash now hpc ops _ ?_
  intro s hs
  have : s = [] := List.eq_of_mem_replicate hs
  simp [this]

/-- Witness for C6: five sets on distinct keys against a 2-entry, 2-shard
cache with 100% forced eviction leave the first shard within its per-shard
capacity of 1. -/
theorem c6_capacity_bound_witness :
    ((runSets tinyEvictingConfig String.length 0 tinySetOps
        (emptyCache String tinyEvictingConfig.numShards)).1.get ⟨0, by decide⟩).length ≤
      perShardCapacity tinyEvictingConfig :=
  c6_capacity_bound tinyEvictingConfig String.length 0 tinySetOps (by decide) (by decide)
    _ (List.get_mem _ _ _)

/-! ## Disabled forced eviction -/

theorem shardSet_snd_eq_zero {α : Type} (cfg : Config) (s : Shard α) (k : String)
    (e : Entry α) (hp : cfg.evictionPercentage = 0) : (shardSet cfg s k e).2 = 0 := by
  unfold shardSet
  cases lookupKey k s with
  | some _ => rfl
  | none =>
    simp only
    by_cases hlt : s.length < perShardCapacity cfg
    · simp [hlt]
    · simp [hlt, hp]

theorem updateNth_snd_eq_zero {α : Type} (f : Shard α → Shard α × Nat)
    (hf : ∀ s, (f s).2 = 0) :
    ∀ (i : Nat) (c : List (Shard α)), (updateNth f i c).2 = 0 := by
  intro i
  induction i with
  | zero =>
    intro c
    cases c with
    | nil => rfl
    | cons hd t => simp [updateNth, hf]
  | succ n ih =>
    intro c
    cases c with
    | nil => rfl
    | cons hd t => simp [updateNth, ih]

theorem runSets_snd_eq_zero {α : Type} (cfg : Config) (hash : String → Nat)
    (now : Nat) (hp : cfg.evictionPercentage = 0) :
    ∀ (ops : List (String × α × Nat)) (c : List (Shard α)),
      (runSets cfg hash now ops c).2 = 0 := by
  intro ops
  induction ops with
  | nil => intro c; rfl
  | cons op t ih =>
    intro c
    obtain ⟨k, v, r⟩ := op
    simp only [runSets, ih]
    have := updateNth_snd_eq_zero (fun s => shardSet cfg s k (newEntry cfg now r v false))
      (fun s => shardSet_snd_eq_zero cfg s k _ hp) (shardIndex cfg.numShards hash k) c
    simp only [cacheSet, this]

/-- **C8.** With `evictionPercentage = 0`, a set whose key is absent from a
shard that is at its per-shard capacity is a no-op: the shard is returned
unchanged (the new entry is silently dropped) and zero forced evictions
are reported; consequently, any number of sets against such a
configuration reports a cumulative forced-eviction count of exactly 0 to
the metrics recorder. -/
theorem c8_noop_when_eviction_disabled :
    (∀ (cfg : Config) (s : Shard String) (k : String) (e : Entry String),
      cfg.evictionPercentage = 0 → lookupKey k s = none →
      ¬ s.length < perShardCapacity cfg →
      shardSet cfg s k e = (s, 0)) ∧
    (∀ (cfg : Config) (hash : String → Nat) (now : Nat)
      (ops : List (String × String × Nat)) (c : List (Shard String)),
      cfg.evictionPercentage = 0 → (runSets cfg hash now ops c).2 = 0) := by
  constructor
  · intro cfg s k e hp hlk hlt
    unfold shardSet
    rw [hlk]
    simp [hlt, hp]
  · intro cfg hash now ops c hp
    exact runSets_snd_eq_zero cfg hash now hp ops c

/-- Witness for C8: a set of a fresh key against the full one-entry shard
of the tiny eviction-disabled configuration returns the shard unchanged
with zero forced evictions, and ten times the capacity in writes reports
zero forced evictions in total. -/
theorem c8_noop_when_eviction_disabled_witness :
    shardSet tinyNoEvictConfig tinyFullShard "b"
        (newEntry tinyNoEvictConfig 0 0 "w" false) = (tinyFullShard, 0) ∧
    (runSets tinyNoEvictConfig String.length 0
        (tinySetOps ++ tinySetOps ++ tinySetOps ++ tinySetOps)
        (emptyCache String tinyNoEvictConfig.numShards)).2 = 0 :=
  ⟨c8_noop_when_eviction_disabled.1 tinyNoEvictConfig tinyFullShard "b"
      (newEntry tinyNoEvictConfig 0 0 "w" false) rfl (by decide) (by decide),
   c8_noop_when_eviction_disabled.2 tinyNoEvictConfig String.length 0
      (tinySetOps ++ tinySetOps ++ tinySetOps ++ tinySetOps)
      (emptyCache String tinyNoEvictConfig.numShards) rfl⟩

/-! ## Expiry sweep -/

theorem evictExpired_spec {α : Type} (now : Nat) :
    ∀ s : Shard α,
      evictExpired now s =
        (s.filter fun kv => decide (now < kv.2.expiresAt),
         (s.filter fun kv => decide (kv.2.expiresAt ≤ now)).length) := by
  intro s
  induction s with
  | nil => rfl
  | cons hd t ih =>
    obtain ⟨k, e⟩ := hd
    simp only [evictExpired, ih, List.filter_cons]
    by_cases he : e.expiresAt ≤ now
    · have h2 : ¬ now < e.expiresAt := by omega
      simp [he, h2]
    · have h2 : now < e.expiresAt := by omega
      simp [he, h2]

theorem evictExpired_count_all {α : Type} (now : Nat) (s : Shard α)
    (h : ∀ kv ∈ s, kv.2.expiresAt ≤ now) : (evictExpired now s).2 = s.length := by
  rw [evictExpired_spec]
  simp only
  rw [List.filter_eq_self.mpr (fun kv hkv => by simpa using h kv hkv)]

theorem sweepAll_count_all {α : Type} (now : Nat) :
    ∀ c : List (Shard α), (∀ s ∈ c, ∀ kv ∈ s, kv.2.expiresAt ≤ now) →
      (sweepAll now c).2 = totalSize c := by
  intro c
  induction c with
  | nil => intro _; rfl
  | cons hd t ih =>
    intro h
    simp only [sweepAll, totalSize]
    rw [evictExpired_count_all now hd (h hd (List.mem_cons_self hd t)),
      ih (fun s hs => h s (List.mem_cons_of_mem hd hs))]

/-- **C9.** The expiry sweep removes from a shard exactly the entries whose
`expires_at` is at most the current clock time, reporting the removed
count to the metrics recorder; consequently, once the clock has passed the
ttl of every entry of a cache that was filled to capacity, running every
shard's sweep once reports a cumulative evicted-entries count equal to the
capacity. -/
theorem c9_expiry_sweep :
    (∀ (α : Type) (now : Nat) (s : Shard α),
      evictExpired now s =
        (s.filter fun kv => decide (now < kv.2.expiresAt),
         (s.filter fun kv => decide (kv.2.expiresAt ≤ now)).length)) ∧
    (∀ (α : Type) (cfg : Config) (now : Nat) (c : List (Shard α)),
      (∀ s ∈ c, ∀ kv ∈ s, kv.2.expiresAt ≤ now) →
      totalSize c = cfg.capacity →
      (sweepAll now c).2 = cfg.capacity) := by
  constructor
  · intro α now s
    exact evictExpired_spec now s
  · intro α cfg now c hall hfull
    rw [sweepAll_count_all now c hall, hfull]

/-- Witness for C9: the two-shard cache filled to its capacity of 2, swept
at time 11 (past the 10 ms ttl of both entries), reports a cumulative
evicted count equal to the capacity. -/
theorem c9_expiry_sweep_witness :
    (sweepAll 11 tinyExpiredCache).2 = tinyShortTtlConfig.capacity :=
  c9_expiry_sweep.2 String tinyShortTtlConfig 11 tinyExpiredCache (by decide) (by decide)

/-! ## Batch partition and batch errors -/

theorem batchPartition_missing (cfg : Config) (now : Nat) (s : Shard String)
    (keyOf : String → String) :
    ∀ ids : List String,
      (batchPartition cfg now s keyOf ids).2.2 =
        ids.filter fun id => (shardGet now s (keyOf id)).isNone := by
  intro ids
  induction ids with
  | nil => rfl
  | cons id t ih =>
    rcases hp : batchPartition cfg now s keyOf t with ⟨c, d, m⟩
    rw [hp] at ih
    simp only [batchPartition, hp, List.filter_cons]
    cases hg : shardGet now s (keyOf id) with
    | some e => simpa [hg] using ih
    | none => simpa [hg] using ih

theorem getFetchBatch_requestedIds (cfg : Config) (now r : Nat)
    (refreshFr fr : BatchFetchResult String) (s : Shard String)
    (keyOf : String → String) (ids : List String) :
    (getFetchBatch cfg now r refreshFr fr s keyOf ids).requestedIds =
      (batchPartition cfg now s keyOf ids).2.2 := by
  rcases hp : batchPartition cfg now s keyOf ids with ⟨c, d, m⟩
  simp only [getFetchBatch, hp]
  cases m with
  | nil => simp
  | cons mh mt =>
    cases fr with
    | success resp => simp
    | failure code =>
      by_cases hc : c.isEmpty <;> simp [hc]

/-- **C5.** `GetFetchBatch` partitions the requested ids by the shard
state and invokes the synchronous batch fetch with exactly the ids that
have no live cached entry — cached-live ids are never re-requested — and
on success the returned map contains both the cached and the newly
fetched entries: with ids 1–3 cached, requesting 1–4 passes only `["4"]`
upstream and returns a 4-entry map from one upstream call. -/
theorem c5_batch_requests_only_missing :
    (∀ (cfg : Config) (now r : Nat) (refreshFr fr : BatchFetchResult String)
      (s : Shard String) (keyOf : String → String) (ids : List String),
      (getFetchBatch cfg now r refreshFr fr s keyOf ids).requestedIds =
        ids.filter fun id => (shardGet now s (keyOf id)).isNone) ∧
    (let p1 := getFetchBatch batchScenarioConfig 0 0 (BatchFetchResult.failure 0)
      (BatchFetchResult.success [("1", "value1"), ("2", "value2"), ("3", "value3")])
      ([] : Shard String) (batchKeyFn "item") ["1", "2", "3"]
     let p2 := getFetchBatch batchScenarioConfig 0 0 (BatchFetchResult.failure 0)
      (BatchFetchResult.success [("4", "value4")]) p1.shard (batchKeyFn "item")
      ["1", "2", "3", "4"]
     p2.records = [("1", "value1"), ("2", "value2"), ("3", "value3"), ("4", "value4")] ∧
       p2.requestedIds = ["4"] ∧ p2.upstreamCalls = 1 ∧ p2.error = none) := by
  constructor
  · intro cfg now r refreshFr fr s keyOf ids
    rw [getFetchBatch_requestedIds, batchPartition_missing]
  · decide

/-- **C4.** When the synchronous batch fetch errors, `GetFetchBatch`
returns `ErrOnlyCachedRecords` together with a map holding exactly the
cached entries, provided at least one requested id was cached; if no
requested id was cached, the underlying fetch error is surfaced instead. -/
theorem c4_only_cached_on_batch_error (cfg : Config) (now r code : Nat)
    (refreshFr : BatchFetchResult String) (s : Shard String)
    (keyOf : String → String) (ids : List String)
    (cached : List (String × String)) (due missing : List String)
    (hp : batchPartition cfg now s keyOf ids = (cached, due, missing))
    (hm : missing ≠ []) :
    (cached ≠ [] →
      (getFetchBatch cfg now r refreshFr (BatchFetchResult.failure code) s keyOf
          ids).records = cached ∧
      (getFetchBatch cfg now r refreshFr (BatchFetchResult.failure code) s keyOf
          ids).error = some BatchErr.onlyCachedRecords) ∧
    (cached = [] →
      (getFetchBatch cfg now r refreshFr (BatchFetchResult.failure code) s keyOf
          ids).records = [] ∧
      (getFetchBatch cfg now r refreshFr (BatchFetchResult.failure code) s keyOf
          ids).error = some (BatchErr.fetchFailure code)) := by
  cases missing with
  | nil => exact absurd rfl hm
  | cons mh mt =>
    constructor
    · intro hc
      cases cached with
      | nil => exact absurd rfl hc
      | cons ch ct => simp [getFetchBatch, hp]
    · rintro rfl
      simp [getFetchBatch, hp]

/-- Witness for C4: with ids 1–4 cached and id 5 missing, a failing batch
fetch yields the 4 cached entries together with `ErrOnlyCachedRecords`. -/
theorem c4_only_cached_on_batch_error_witness :
    (getFetchBatch batchScenarioConfig 0 0 (BatchFetchResult.failure 0)
        (BatchFetchResult.failure 7)
        (getFetchBatch batchScenarioConfig 0 0 (BatchFetchResult.failure 0)
          (BatchFetchResult.success
            [("1", "value1"), ("2", "value2"), ("3", "value3"), ("4", "value4")])
          ([] : Shard String) (batchKeyFn "item") ["1", "2", "3", "4"]).shard
        (batchKeyFn "item") ["1", "2", "3", "4", "5"]).records =
      [("1", "value1"), ("2", "value2"), ("3", "value3"), ("4", "value4")] ∧
    (getFetchBatch batchScenarioConfig 0 0 (BatchFetchResult.failure 0)
        (BatchFetchResult.failure 7)
        (getFetchBatch batchScenarioConfig 0 0 (BatchFetchResult.failure 0)
          (BatchFetchResult.success
            [("1", "value1"), ("2", "value2"), ("3", "value3"), ("4", "value4")])
          ([] : Shard String) (batchKeyFn "item") ["1", "2", "3", "4"]).shard
        (batchKeyFn "item") ["1", "2", "3", "4", "5"]).error =
      some BatchErr.onlyCachedRecords := by
  have h := c4_only_cached_on_batch_error batchScenarioConfig 0 0 7
    (BatchFetchResult.failure 0)
    (getFetchBatch batchScenarioConfig 0 0 (BatchFetchResult.failure 0)
      (BatchFetchResult.success
        [("1", "value1"), ("2", "value2"), ("3", "value3"), ("4", "value4")])
      ([] : Shard String) (batchKeyFn "item") ["1", "2", "3", "4"]).shard
    (batchKeyFn "item") ["1", "2", "3", "4", "5"]
    [("1", "value1"), ("2", "value2"), ("3", "value3"), ("4", "value4")] [] ["5"]
    (by decide) (by decide)
  exact h.1 (by decide)

/-! ## Back-off, negative caching and nil-map scenarios -/

/-- **C2.** A failed background refresh increments
`consecutive_refresh_failures` and reschedules
`refresh_at = now + retryInterval · 2^(min(failures, CAP))`; consequently,
in the retry scenario (insert, go past the refresh window, then 100
`GetFetch` calls against a permanently failing upstream, each advancing
the injected clock by `retryInterval`) the total number of upstream
attempts, the initial cold-miss fetch included, is at most 8. -/
theorem c2_exponential_backoff :
    (∀ (cfg : Config) (now : Nat) (e : Entry String),
      (backoffOnFailure cfg now e).consecutiveRefreshFailures =
          e.consecutiveRefreshFailures + 1 ∧
      (backoffOnFailure cfg now e).refreshAt =
          now + cfg.retryInterval *
            2 ^ Nat.min (e.consecutiveRefreshFailures + 1) backoffCap) ∧
    (let s1 := (getFetch retryScenarioConfig 0 0 (FetchResult.success "value1")
        ([] : Shard String) "1").2.1
     let f2 := getFetch retryScenarioConfig 2001 0 (FetchResult.failure 5) s1 "1"
     1 + f2.2.2 + (retryLoop retryScenarioConfig 5 100 2001 f2.2.1 "1").1 ≤ 8) := by
  constructor
  · intro cfg now e
    exact ⟨rfl, rfl⟩
  · decide

/-- **C3.** With stampede protection and negative caching enabled and an
uncached key whose fetch reports the missing-record sentinel: the first
`GetFetch` surfaces `ErrStoreMissingRecord` from exactly one upstream
call; past the refresh delay, the second call returns `ErrMissingRecord`
while launching the background refresh (which now succeeds); the third
call returns the refreshed value without any further upstream call. -/
theorem c3_negative_caching_scenario :
    (let c1 := getFetch missingScenarioConfig 0 0 FetchResult.storeMissingRecord
      ([] : Shard String) "1"
     let c2 := getFetch missingScenarioConfig 2000 0 (FetchResult.success "value1")
      c1.2.1 "1"
     let c3 := getFetch missingScenarioConfig 2000 0 (FetchResult.failure 99)
      c2.2.1 "1"
     c1.1 = GetResult.errStoreMissingRecord ∧ c1.2.2 = 1 ∧
       c2.1 = GetResult.errMissingRecord ∧ c2.2.2 = 1 ∧
       c3.1 = GetResult.ok "value1" ∧ c3.2.2 = 0) := by
  decide

/-- **C10.** When the batch fetch returns an empty (nil) map with no error
for a set of uncached ids, `GetFetchBatch` returns an empty result map and
no error, and with negative caching enabled every requested id is stored
as a missing record, so a second identical call issued before
`minRefreshDelay` has elapsed makes no upstream call at all. -/
theorem c10_nil_map_negative_caching :
    (let b1 := getFetchBatch nilMapScenarioConfig 0 0 (BatchFetchResult.failure 0)
      (BatchFetchResult.success []) ([] : Shard String) (batchKeyFn "item")
      ["1", "2", "3", "4"]
     let b2 := getFetchBatch nilMapScenarioConfig 59999 0 (BatchFetchResult.failure 0)
      (BatchFetchResult.failure 0) b1.shard (batchKeyFn "item") ["1", "2", "3", "4"]
     b1.records = [] ∧ b1.error = none ∧ b1.upstreamCalls = 1 ∧
       b1.requestedIds = ["1", "2", "3", "4"] ∧
       (["1", "2", "3", "4"].all fun id =>
         match lookupKey (batchKeyFn "item" id) b1.shard with
         | some e => e.isMissingRecord
         | none => false) = true ∧
       b2.records = [] ∧ b2.error = none ∧ b2.upstreamCalls = 0) := by
  decide

/-! ## Single-key stampede suppression -/

theorem burstStep_inv2 {α : Type} (cfg : Config) (now : Nat)
    (hmin : 1 ≤ cfg.minRefreshDelay) (httl : 1 ≤ cfg.ttl)
    (st : RefreshBurst α) (ev : BurstEvent α) (h : burstInv2 now st) :
    burstInv2 now (burstStep cfg now st ev) := by
  obtain ⟨hc, hlive, hor⟩ := h
  cases ev with
  | caller r v =>
    have hdue : dueForRefresh cfg now st.entry = false := by
      rcases hor with h1 | h2
      · simp [dueForRefresh, h1]
      · have : ¬ st.entry.refreshAt ≤ now := by omega
        simp [dueForRefresh, this]
    simp only [burstStep]
    rw [if_pos hlive, hdue, if_neg Bool.false_ne_true]
    exact ⟨hc, hlive, hor⟩
  | complete r v =>
    by_cases hr : st.entry.isRefreshing = true
    · simp only [burstStep]
      rw [if_pos hr]
      refine ⟨hc, ?_, Or.inr ?_⟩
      · simp only [newEntry]
        omega
      · simp only [newEntry, drawRefreshAt]
        omega
    · simp only [burstStep]
      rw [if_neg hr]
      exact ⟨hc, hlive, hor⟩

theorem burstRun_inv2 {α : Type} (cfg : Config) (now : Nat)
    (hmin : 1 ≤ cfg.minRefreshDelay) (httl : 1 ≤ cfg.ttl) :
    ∀ (trace : List (BurstEvent α)) (st : RefreshBurst α), burstInv2 now st →
      burstInv2 now (burstRun cfg now st trace) := by
  intro trace
  induction trace with
  | nil => intro st h; exact h
  | cons ev t ih =>
    intro st h
    exact ih _ (burstStep_inv2 cfg now hmin httl st ev h)

theorem burstRun_inv1_count {α : Type} (cfg : Config) (now : Nat)
    (hsp : cfg.stampedeProtectionEnabled = true)
    (hmin : 1 ≤ cfg.minRefreshDelay) (httl : 1 ≤ cfg.ttl) :
    ∀ (trace : List (BurstEvent α)) (st : RefreshBurst α), burstInv1 now st →
      hasCaller trace = true →
      (burstRun cfg now st trace).fetchCount = 2 := by
  intro trace
  induction trace with
  | nil =>
    intro st _ hcall
    simp [hasCaller] at hcall
  | cons ev t ih =>
    intro st h hcall
    obtain ⟨hc, hlive, hdue, href⟩ := h
    cases ev with
    | caller r v =>
      have hd : dueForRefresh cfg now st.entry = true := by
        simp [dueForRefresh, hsp, hdue, href]
      have hstep : burstStep cfg now st (BurstEvent.caller r v) =
          { entry := { st.entry with isRefreshing := true },
            fetchCount := st.fetchCount + 1 } := by
        simp only [burstStep]
        rw [if_pos hlive, hd, if_pos rfl]
      have hinv2 : burstInv2 now (burstStep cfg now st (BurstEvent.caller r v)) := by
        rw [hstep]
        exact ⟨by simp [hc], hlive, Or.inl rfl⟩
      obtain ⟨h2, _, _⟩ := burstRun_inv2 cfg now hmin httl t _ hinv2
      exact h2
    | complete r v =>
      have hstep : burstStep cfg now st (BurstEvent.complete r v) = st := by
        simp only [burstStep]
        rw [if_neg (by simp [href])]
      show (burstRun cfg now (burstStep cfg now st (BurstEvent.complete r v)) t).fetchCount = 2
      rw [hstep]
      exact ih st ⟨hc, hlive, hdue, href⟩ hcall

/-- **C1.** A key holding a live cached entry past its `refresh_at`: under
any interleaving of any number of concurrent `GetFetch` callers (and of
refresh completions) in which at least one caller inspects the entry, the
upstream fetch function is invoked exactly one additional time — the
first caller marks `is_refreshing` and launches the one background
refresh, every other caller observes the flag (or the redrawn
`refresh_at`) and launches nothing — so the total fetch count including
the initial cold-miss fetch is exactly 2. -/
theorem c1_stampede_suppression {α : Type} (cfg : Config) (now : Nat)
    (e0 : Entry α) (trace : List (BurstEvent α))
    (hsp : cfg.stampedeProtectionEnabled = true)
    (hmin : 1 ≤ cfg.minRefreshDelay) (httl : 1 ≤ cfg.ttl)
    (hlive : now < e0.expiresAt) (hdue : e0.refreshAt ≤ now)
    (href : e0.isRefreshing = false) (hcall : hasCaller trace = true) :
    (burstRun cfg now { entry := e0, fetchCount := 1 } trace).fetchCount = 2 :=
  burstRun_inv1_count cfg now hsp hmin httl trace _ ⟨rfl, hlive, hdue, href⟩ hcall

/-- Witness for C1: in the stampede scenario (entry inserted at time 0,
clock advanced past `maxRefreshDelay` to 1001), an interleaving of three
callers and one refresh completion ends with a fetch count of exactly 2. -/
theorem c1_stampede_suppression_witness :
    (burstRun stampedeScenarioConfig 1001
        { entry := newEntry stampedeScenarioConfig 0 0 "value1" false, fetchCount := 1 }
        [BurstEvent.caller 0 "value1", BurstEvent.caller 1 "value1",
         BurstEvent.complete 2 "value1", BurstEvent.caller 3 "value1"]).fetchCount = 2 :=
  c1_stampede_suppression stampedeScenarioConfig 1001
    (newEntry stampedeScenarioConfig 0 0 "value1" false) _
    rfl (by decide) (by decide) (by decide) (by decide) rfl rfl

/-! ## Batch stampede protection -/

theorem batchBurstStep_aux {n : Nat} (st : BatchBurst n) (s : List (Fin n))
    (h : st.marked.Nodup) :
    (batchBurstStep st s).marked.Nodup ∧
    (batchBurstStep st s).fetchCount + st.marked.length ≤
      st.fetchCount + (batchBurstStep st s).marked.length := by
  unfold batchBurstStep
  by_cases hg : s ≠ [] ∧ s.Nodup ∧ ∀ k ∈ s, k ∉ st.marked
  · rw [if_pos hg]
    obtain ⟨hne, hnd, hdisj⟩ := hg
    refine ⟨List.Nodup.append hnd h hdisj, ?_⟩
    have : 1 ≤ s.length := List.length_pos.mpr hne
    simp only [List.length_append]
    omega
  · rw [if_neg hg]
    exact ⟨h, Nat.le_refl _⟩

theorem batchBurstRun_aux {n : Nat} :
    ∀ (trace : List (List (Fin n))) (st : BatchBurst n), st.marked.Nodup →
      (batchBurstRun st trace).marked.Nodup ∧
      (batchBurstRun st trace).fetchCount + st.marked.length ≤
        st.fetchCount + (batchBurstRun st trace).marked.length := by
  intro trace
  induction trace with
  | nil => intro st h; exact ⟨h, Nat.le_refl _⟩
  | cons s t ih =>
    intro st h
    obtain ⟨h1, h2⟩ := batchBurstStep_aux st s h
    obtain ⟨h3, h4⟩ := ih (batchBurstStep st s) h1
    refine ⟨h3, ?_⟩
    show (batchBurstRun (batchBurstStep st s) t).fetchCount + st.marked.length ≤
      st.fetchCount + (batchBurstRun (batchBurstStep st s) t).marked.length
    omega

/-- Counterexample to C7 as stated: with 3 due keys and no top-level lock
across the ids of one `GetFetchBatch` call, one goroutine can mark keys 1
and 2 and launch a batch for them while another goroutine marks key 0 and
launches a second batch, so the fetch count after the burst is 3, not the
2 the claim (exactly one additional upstream batch call) requires. -/
theorem c7_exactly_one_refresh_counterexample :
    (batchBurstRun (n := 3) { marked := [], fetchCount := 1 }
        [[1, 2], [0]]).fetchCount = 3 ∧
    ¬ (batchBurstRun (n := 3) { marked := [], fetchCount := 1 }
        [[1, 2], [0]]).fetchCount = 2 := by
  decide

/-- **C7 (amended).** A key already participating in an in-flight batch
refresh is excluded from any new batch, so each due key is marked at most
once and every launched batch contains at least one freshly marked key:
for any interleaving of concurrent `GetFetchBatch` calls over `n` due
keys, the number of additional upstream batch calls is at most `n` (at
most 3 additional calls — 4 total — for the 3-key burst, the bound the
test asserts), though not necessarily exactly one. -/
theorem c7_at_most_one_batch_per_key {n : Nat} (st : BatchBurst n)
    (trace : List (List (Fin n))) (h : st.marked = []) :
    (batchBurstRun st trace).fetchCount ≤ st.fetchCount + n := by
  have hnd : st.marked.Nodup := by rw [h]; exact List.nodup_nil
  obtain ⟨h1, h2⟩ := batchBurstRun_aux trace st hnd
  have hcard : (batchBurstRun st trace).marked.length ≤ n := by
    have := List.Nodup.length_le_card h1
    simpa using this
  rw [h] at h2
  simp only [List.length_nil] at h2
  omega

/-- Witness for C7 (amended): a 3-key burst in which three goroutines
launch overlapping singleton and pair batches ends with at most 4 upstream
batch calls in total. -/
theorem c7_at_most_one_batch_per_key_witness :
    (batchBurstRun (n := 3) { marked := [], fetchCount := 1 }
        [[0], [1, 2], [2], [1]]).fetchCount ≤ 1 + 3 :=
  c7_at_most_one_batch_per_key { marked := [], fetchCount := 1 }
    [[0], [1, 2], [2], [1]] rfl

end Sturdyc
